import Mathlib

/-!
Verification development for the collaborative-editing backend
(`internal/ws`: Room / Hub / Client / message protocol).

The Go source is shallowly embedded: byte slices become `String`,
`int64` counters become `Int` (the version counter moves by steps of 1,
far from the 64-bit boundary), the in-place mutating methods become
pure state-passing functions, and the external `evanphx/json-patch`
library is modelled by an executable RFC 6902 evaluator over a JSON
value type (numbers are modelled as integers, which covers every
document exercised here).
-/

namespace LCWS

/-- JSON values, modelling the documents a Room holds as bytes.
Object fields keep their textual order; numbers are modelled as `Int`. -/
inductive Json where
  | null
  | bool (b : Bool)
  | num (n : Int)
  | str (s : String)
  | arr (elems : List Json)
  | obj (fields : List (String × Json))
deriving Repr

mutual

/-- Deep structural equality of JSON values, modelling the deep-equal
comparison Go performs for the RFC 6902 `test` operation. -/
def Json.beq : Json → Json → Bool
  | .null, .null => true
  | .bool a, .bool b => a == b
  | .num a, .num b => a == b
  | .str a, .str b => a == b
  | .arr xs, .arr ys => Json.beqList xs ys
  | .obj xs, .obj ys => Json.beqFields xs ys
  | _, _ => false

/-- Elementwise `Json.beq` on arrays. -/
def Json.beqList : List Json → List Json → Bool
  | [], [] => true
  | x :: xs, y :: ys => Json.beq x y && Json.beqList xs ys
  | _, _ => false

/-- Elementwise `Json.beq` on object field lists (order-sensitive). -/
def Json.beqFields : List (String × Json) → List (String × Json) → Bool
  | [], [] => true
  | (k, v) :: xs, (l, w) :: ys => k == l && Json.beq v w && Json.beqFields xs ys
  | _, _ => false

end

/-- Whitespace skipping for the JSON scanner. -/
def skipWs : List Char → List Char
  | c :: cs => if c = ' ' ∨ c = '\n' ∨ c = '\t' ∨ c = '\r' then skipWs cs else c :: cs
  | [] => []

/-- Scan a JSON string body (after the opening quote) up to the closing
quote, handling the simple escapes; `\u` escapes are outside the model. -/
def scanString : List Char → Option (List Char × List Char)
  | [] => none
  | '"' :: rest => some ([], rest)
  | '\\' :: e :: rest =>
    let esc : Option Char :=
      match e with
      | '"' => some '"'
      | '\\' => some '\\'
      | '/' => some '/'
      | 'n' => some '\n'
      | 't' => some '\t'
      | 'r' => some '\r'
      | _ => none
    match esc with
    | none => none
    | some c =>
      match scanString rest with
      | some (s, rem) => some (c :: s, rem)
      | none => none
  | c :: rest =>
    match scanString rest with
    | some (s, rem) => some (c :: s, rem)
    | none => none

/-- Scan a run of decimal digits, returning its value and the rest. -/
def scanDigits : List Char → Option (Nat × List Char)
  | c :: cs =>
    if c.isDigit then
      match scanDigits cs with
      | some (n, rest) => some (c.toNat - '0'.toNat + n * 10, rest)
      | none => some (c.toNat - '0'.toNat, cs)
    else none
  | [] => none

/-- Digit accumulation: fold left over the scanned digit list. -/
def digitsVal (acc : Nat) : List Char → Nat × List Char
  | c :: cs =>
    if c.isDigit then digitsVal (acc * 10 + (c.toNat - '0'.toNat)) cs
    else (acc, c :: cs)
  | [] => (acc, [])

mutual

/-- Fuel-indexed JSON parser over a character list.  Returns the parsed
value and the unconsumed rest, or `none` on malformed input. -/
def parseJson : Nat → List Char → Option (Json × List Char)
  | 0, _ => none
  | fuel + 1, cs =>
    match skipWs cs with
    | 'n' :: 'u' :: 'l' :: 'l' :: rest => some (.null, rest)
    | 't' :: 'r' :: 'u' :: 'e' :: rest => some (.bool true, rest)
    | 'f' :: 'a' :: 'l' :: 's' :: 'e' :: rest => some (.bool false, rest)
    | '"' :: rest =>
      match scanString rest with
      | some (s, rem) => some (.str (String.mk s), rem)
      | none => none
    | '-' :: c :: rest =>
      if c.isDigit then
        let (n, rem) := digitsVal (c.toNat - '0'.toNat) rest
        some (.num (-(Int.ofNat n)), rem)
      else none
    | '[' :: rest => parseArrayItems fuel (skipWs rest) true
    | '{' :: rest => parseObjFields fuel (skipWs rest) true
    | c :: rest =>
      if c.isDigit then
        let (n, rem) := digitsVal (c.toNat - '0'.toNat) rest
        some (.num (Int.ofNat n), rem)
      else none
    | [] => none

/-- Parse the items of a JSON array after the opening bracket; `first`
records whether no item has been consumed yet. -/
def parseArrayItems : Nat → List Char → Bool → Option (Json × List Char)
  | 0, _, _ => none
  | _ + 1, ']' :: rest, true => some (.arr [], rest)
  | fuel + 1, cs, _ =>
    match parseJson fuel cs with
    | none => none
    | some (v, rem) =>
      match skipWs rem with
      | ',' :: rest =>
        match parseArrayItems fuel (skipWs rest) false with
        | some (.arr vs, rem2) => some (.arr (v :: vs), rem2)
        | _ => none
      | ']' :: rest => some (.arr [v], rest)
      | _ => none

/-- Parse the fields of a JSON object after the opening brace. -/
def parseObjFields : Nat → List Char → Bool → Option (Json × List Char)
  | 0, _, _ => none
  | _ + 1, '}' :: rest, true => some (.obj [], rest)
  | fuel + 1, cs, _ =>
    match cs with
    | '"' :: rest =>
      match scanString rest with
      | none => none
      | some (k, rem) =>
        match skipWs rem with
        | ':' :: rem2 =>
          match parseJson fuel (skipWs rem2) with
          | none => none
          | some (v, rem3) =>
            match skipWs rem3 with
            | ',' :: rest2 =>
              match parseObjFields fuel (skipWs rest2) false with
              | some (.obj fs, rem4) => some (.obj ((String.mk k, v) :: fs), rem4)
              | _ => none
            | '}' :: rest2 => some (.obj [(String.mk k, v)], rest2)
            | _ => none
        | _ => none
    | _ => none

end

/-- Parse a whole string as one JSON document (no trailing garbage),
modelling `encoding/json` unmarshalling of a byte slice. -/
def Json.parse (s : String) : Option Json :=
  match parseJson (s.length + 1) s.data with
  | some (v, rest) => if skipWs rest = [] then some v else none
  | none => none

/-- Escape one character for JSON string output. -/
def escapeChar (c : Char) : String :=
  if c = '"' then "\\\""
  else if c = '\\' then "\\\\"
  else if c = '\n' then "\\n"
  else if c = '\t' then "\\t"
  else if c = '\r' then "\\r"
  else String.singleton c

/-- Escape a whole string for JSON output. -/
def escapeString (s : String) : String :=
  s.data.foldl (fun acc c => acc ++ escapeChar c) ""

mutual

/-- Serialize a JSON value back to text, modelling `json.Marshal`
applied to the patched document. -/
def Json.render : Json → String
  | .null => "null"
  | .bool true => "true"
  | .bool false => "false"
  | .num n => toString n
  | .str s => "\"" ++ escapeString s ++ "\""
  | .arr xs => "[" ++ Json.renderList xs ++ "]"
  | .obj fs => "\x7b" ++ Json.renderFields fs ++ "\x7d"

/-- Comma-joined rendering of array elements. -/
def Json.renderList : List Json → String
  | [] => ""
  | [x] => Json.render x
  | x :: xs => Json.render x ++ "," ++ Json.renderList xs

/-- Comma-joined rendering of object fields. -/
def Json.renderFields : List (String × Json) → String
  | [] => ""
  | [(k, v)] => "\"" ++ escapeString k ++ "\":" ++ Json.render v
  | (k, v) :: fs => "\"" ++ escapeString k ++ "\":" ++ Json.render v ++ "," ++ Json.renderFields fs

end

/-! ## RFC 6902 JSON Patch, as applied by the `evanphx/json-patch` library -/

/-- Unescape RFC 6901 pointer tokens (`~1` is `/`, `~0` is `~`). -/
def unescapeChars : List Char → List Char
  | '~' :: '1' :: rest => '/' :: unescapeChars rest
  | '~' :: '0' :: rest => '~' :: unescapeChars rest
  | c :: rest => c :: unescapeChars rest
  | [] => []

/-- Split characters on `/`, unescaping each finished token; `acc` holds
the current token's characters in reverse. -/
def splitTokens : List Char → List Char → List String
  | [], acc => [String.mk (unescapeChars acc.reverse)]
  | '/' :: rest, acc => String.mk (unescapeChars acc.reverse) :: splitTokens rest []
  | c :: rest, acc => splitTokens rest (c :: acc)

/-- Split an RFC 6901 JSON pointer into its reference tokens.  The empty
pointer names the whole document; otherwise a leading `/` is required. -/
def splitPointer (s : String) : Except String (List String)  :=
  match s.data with
  | [] => .ok []
  | '/' :: rest => .ok (splitTokens rest [])
  | _ => .error ("invalid JSON pointer: " ++ s)

/-- Look up a key in an object field list (first occurrence). -/
def lookupField (fields : List (String × Json)) (k : String) : Option Json :=
  match fields with
  | [] => none
  | (k2, v) :: rest => if k2 = k then some v else lookupField rest k

/-- Replace the value under `k`, or append a new field, preserving order. -/
def setField (fields : List (String × Json)) (k : String) (v : Json) : List (String × Json) :=
  match fields with
  | [] => [(k, v)]
  | (k2, w) :: rest => if k2 = k then (k2, v) :: rest else (k2, w) :: setField rest k v

/-- Remove the field under `k` (first occurrence). -/
def removeField (fields : List (String × Json)) (k : String) : List (String × Json) :=
  match fields with
  | [] => []
  | (k2, w) :: rest => if k2 = k then rest else (k2, w) :: removeField rest k

/-- Interpret a pointer token as an array index (digits only). -/
def tokIndex (t : String) : Option Nat :=
  if t ≠ "" ∧ t.data.all Char.isDigit then
    some (t.data.foldl (fun acc c => acc * 10 + (c.toNat - '0'.toNat)) 0)
  else none

/-- Fetch the value a pointer names, failing on any missing step
(this is what makes a `replace` on a nonexistent path inapplicable). -/
def jsonGet : Json → List String → Except String Json
  | d, [] => .ok d
  | .obj fields, t :: ts =>
    match lookupField fields t with
    | some v => jsonGet v ts
    | none => .error ("missing key: " ++ t)
  | .arr xs, t :: ts =>
    match tokIndex t with
    | some i =>
      match xs.get? i with
      | some v => jsonGet v ts
      | none => .error ("array index out of range: " ++ t)
    | none => .error ("invalid array index: " ++ t)
  | _, t :: _ => .error ("cannot descend into scalar at: " ++ t)

/-- Apply `f` to the container holding the final pointer token, rebuilding
the document along the way; every intermediate step must exist. -/
def jsonModify (d : Json) (path : List String) (f : Json → String → Except String Json) : Except String Json :=
  match path with
  | [] => .error "empty pointer"
  | [t] => f d t
  | t :: ts =>
    match d with
    | .obj fields =>
      match lookupField fields t with
      | some child =>
        match jsonModify child ts f with
        | .ok child2 => .ok (.obj (setField fields t child2))
        | .error e => .error e
      | none => .error ("missing key: " ++ t)
    | .arr xs =>
      match tokIndex t with
      | some i =>
        match xs.get? i with
        | some child =>
          match jsonModify child ts f with
          | .ok child2 => .ok (.arr (xs.set i child2))
          | .error e => .error e
        | none => .error ("array index out of range: " ++ t)
      | none => .error ("invalid array index: " ++ t)
    | _ => .error ("cannot descend into scalar at: " ++ t)

/-- RFC 6902 `add`: at the root it replaces the document; in an object it
inserts or overwrites a key; in an array it inserts at the index or appends
at `-`. -/
def jsonAdd (d : Json) (path : List String) (v : Json) : Except String Json :=
  match path with
  | [] => .ok v
  | _ => jsonModify d path (fun parent t =>
      match parent with
      | .obj fields => .ok (.obj (setField fields t v))
      | .arr xs =>
        if t = "-" then .ok (.arr (xs ++ [v]))
        else match tokIndex t with
          | some i =>
            if i ≤ xs.length then .ok (.arr (xs.take i ++ v :: xs.drop i))
            else .error ("array index out of range: " ++ t)
          | none => .error ("invalid array index: " ++ t)
      | _ => .error ("add target parent is not a container"))

/-- RFC 6902 `remove`: the named member must exist. -/
def jsonRemove (d : Json) (path : List String) : Except String Json :=
  jsonModify d path (fun parent t =>
    match parent with
    | .obj fields =>
      match lookupField fields t with
      | some _ => .ok (.obj (removeField fields t))
      | none => .error ("unable to remove nonexistent key: " ++ t)
    | .arr xs =>
      match tokIndex t with
      | some i =>
        if i < xs.length then .ok (.arr (xs.take i ++ xs.drop (i + 1)))
        else .error ("array index out of range: " ++ t)
      | none => .error ("invalid array index: " ++ t)
    | _ => .error "remove target parent is not a container")

/-- RFC 6902 `replace`: the target must already exist. -/
def jsonReplace (d : Json) (path : List String) (v : Json) : Except String Json :=
  match path with
  | [] => .ok v
  | _ =>
    match jsonGet d path with
    | .ok _ => jsonAdd d path v
    | .error e => .error e

/-- One decoded patch operation: the raw field map of the JSON object,
as `evanphx/json-patch` keeps operations (`map[string]json.RawMessage`). -/
structure PatchOp where
  fields : List (String × Json)
deriving Repr

/-- The `op` field; a missing or non-string field reads as `"unknown"`,
mirroring the library's `Operation.Kind()`. -/
def PatchOp.kind (o : PatchOp) : String :=
  match lookupField o.fields "op" with
  | some (.str s) => s
  | _ => "unknown"

/-- The `path` field, required to be a string. -/
def PatchOp.path (o : PatchOp) : Except String String :=
  match lookupField o.fields "path" with
  | some (.str s) => .ok s
  | _ => .error "operation missing path field"

/-- The `from` field, required by `move` and `copy`. -/
def PatchOp.fromPath (o : PatchOp) : Except String String :=
  match lookupField o.fields "from" with
  | some (.str s) => .ok s
  | _ => .error "operation missing from field"

/-- The `value` field, required by `add`, `replace` and `test`. -/
def PatchOp.value (o : PatchOp) : Except String Json :=
  match lookupField o.fields "value" with
  | some v => .ok v
  | none => .error "operation missing value field"

/-- Decode patch bytes into an operation list, modelling
`jsonpatch.DecodePatch`: the bytes must unmarshal as a JSON array of
objects; operation names are not checked until application. -/
def decodePatch (patchBytes : String) : Except String (List PatchOp) :=
  match Json.parse patchBytes with
  | none => .error "invalid patch json"
  | some (.arr elems) =>
    elems.foldr (fun e acc =>
      match e, acc with
      | .obj fields, .ok ops => .ok (⟨fields⟩ :: ops)
      | _, .ok _ => .error "patch element is not an object"
      | _, .error msg => .error msg) (.ok [])
  | some _ => .error "patch is not an array"

/-- Apply a single decoded operation to a document, modelling the
per-operation dispatch in `Patch.Apply`; any operation name outside
RFC 6902 is rejected. -/
def applyOp (d : Json) (o : PatchOp) : Except String Json :=
  match o.kind with
  | "add" => do jsonAdd d (← splitPointer (← o.path)) (← o.value)
  | "remove" => do jsonRemove d (← splitPointer (← o.path))
  | "replace" => do jsonReplace d (← splitPointer (← o.path)) (← o.value)
  | "move" => do
    let fp ← splitPointer (← o.fromPath)
    let v ← jsonGet d fp
    let d2 ← jsonRemove d fp
    jsonAdd d2 (← splitPointer (← o.path)) v
  | "copy" => do
    let v ← jsonGet d (← splitPointer (← o.fromPath))
    jsonAdd d (← splitPointer (← o.path)) v
  | "test" => do
    let v ← jsonGet d (← splitPointer (← o.path))
    let w ← o.value
    if Json.beq v w then .ok d else .error "test failed"
  | k => .error ("Unexpected kind: " ++ k)

/-- Apply the operations in order; the first failure aborts the whole
patch (no partial application escapes, since the caller keeps its
original document on error). -/
def applyOps (d : Json) : List PatchOp → Except String Json
  | [] => .ok d
  | o :: rest =>
    match applyOp d o with
    | .ok d2 => applyOps d2 rest
    | .error e => .error e

/-- `Patch.Apply` on document bytes: unmarshal the current snapshot,
apply the operations, marshal the result. -/
def patchApply (ops : List PatchOp) (doc : String) : Except String String :=
  match Json.parse doc with
  | none => .error "invalid document json"
  | some d =>
    match applyOps d ops with
    | .ok d2 => .ok (Json.render d2)
    | .error e => .error e

/-! ## Message protocol (`message.go`) -/

/-- User display metadata (`UserInfo`). -/
structure UserInfo where
  userID : String
  userName : String
  color : String
deriving DecidableEq, Repr

/-- Stable error codes surfaced to clients (`ErrorCode` in `message.go`). -/
inductive ErrorCode where
  | versionConflict
  | patchInvalid
  | patchFailed
  | roomNotFound
  | unauthorized
  | internalError
  | pageDeleted
deriving DecidableEq, Repr

/-- The wire string of each error code. -/
def ErrorCode.code : ErrorCode → String
  | .versionConflict => "VERSION_CONFLICT"
  | .patchInvalid => "PATCH_INVALID"
  | .patchFailed => "PATCH_FAILED"
  | .roomNotFound => "ROOM_NOT_FOUND"
  | .unauthorized => "UNAUTHORIZED"
  | .internalError => "INTERNAL_ERROR"
  | .pageDeleted => "PAGE_DELETED"

/-- A framed outbound message as it sits in a client mailbox.  Client
originated bytes are broadcast verbatim (`raw`); server-built frames
(`sync`, `errorMsg`) are kept structured instead of serialized. -/
inductive WireMsg where
  | raw (bytes : String)
  | sync (schema : String) (version : Int) (users : List UserInfo)
  | errorMsg (code : ErrorCode) (detail : String)
deriving DecidableEq, Repr

/-- The errors `Room.ApplyPatch` can return (`VersionConflictError`,
`PatchError`). -/
inductive ApplyError where
  | versionConflict (currentVersion expectedVersion : Int)
  | patchError (reason : String)
deriving DecidableEq, Repr

/-! ## Client (`client.go`) -/

/-- One WebSocket client.  Go compares clients by pointer identity; the
model carries an explicit identity `cid`.  The `send` channel of
capacity 256 becomes an explicit bounded buffer plus a closed flag. -/
structure Client where
  cid : Nat
  userInfo : UserInfo
  sendCap : Nat
  sendBuf : List WireMsg
  sendClosed : Bool
deriving DecidableEq, Repr

/-- `NewClient`: fresh client with an empty mailbox of capacity 256. -/
def newClient (cid : Nat) (userInfo : UserInfo) : Client :=
  { cid := cid, userInfo := userInfo, sendCap := 256, sendBuf := [], sendClosed := false }

/-! ## Room (`room.go`) -/

/-- The version-delta flush threshold (`FlushThreshold = 50`). -/
def flushThreshold : Int := 50

/-- A collaborative-editing room.  The `clients` map ordered by insertion
becomes a list; `CurrentState` bytes become a `String`. -/
structure Room where
  id : String
  currentState : String
  version : Int
  lastPersistedVersion : Int
  clients : List Client
  clientCount : Int
  stopping : Bool
deriving DecidableEq, Repr

/-- `NewRoom`: initial state, version 1, empty client set. -/
def newRoom (id : String) (initialState : String) : Room :=
  { id := id, currentState := initialState, version := 1,
    lastPersistedVersion := 0, clients := [], clientCount := 0, stopping := false }

/-- The outcome of one `Room.ApplyPatch` call: the (possibly mutated)
room, the returned error if any, and whether a threshold flush was
spawned. -/
structure PatchResult where
  room : Room
  err : Option ApplyError
  flushTriggered : Bool
deriving DecidableEq, Repr

/-- `Room.ApplyPatch(patchBytes, expectedVersion)`: check the version
under the state lock, decode the patch, apply it, and on success install
the new snapshot, bump the version, and spawn a flush when the version
has run `flushThreshold` past the last persisted one. -/
def Room.applyPatch (r : Room) (patchBytes : String) (expectedVersion : Int) : PatchResult :=
  if r.version ≠ expectedVersion then
    ⟨r, some (.versionConflict r.version expectedVersion), false⟩
  else
    match decodePatch patchBytes with
    | .error e => ⟨r, some (.patchError ("patch 解析失败: " ++ e)), false⟩
    | .ok ops =>
      match patchApply ops r.currentState with
      | .error e => ⟨r, some (.patchError ("patch 应用失败: " ++ e)), false⟩
      | .ok modified =>
        let r2 := { r with currentState := modified, version := r.version + 1 }
        ⟨r2, none, decide (r2.version - r2.lastPersistedVersion ≥ flushThreshold)⟩

/-- `Room.GetSnapshot`: a defensive copy of the state and version. -/
def Room.getSnapshot (r : Room) : String × Int :=
  (r.currentState, r.version)

/-- One record handed to `PageService.SavePageState`. -/
structure SaveRecord where
  pageID : String
  state : String
  oldVersion : Int
  newVersion : Int
deriving DecidableEq, Repr

/-- `Room.flushToDB`: no-op when nothing is unpersisted; otherwise copy
(snapshot, versions) under the read lock, call the persistence service
(`saveOk` models its success), and on success advance
`lastPersistedVersion` only if this flush is still ahead of it.  The
returned flag records whether `SavePageState` was called. -/
def Room.flushToDB (r : Room) (store : List SaveRecord) (saveOk : Bool) : Room × List SaveRecord × Bool :=
  if r.version = r.lastPersistedVersion then (r, store, false)
  else
    let snapshot := r.currentState
    let currentVersion := r.version
    let lastVersion := r.lastPersistedVersion
    if saveOk then
      let store2 := store ++ [⟨r.id, snapshot, lastVersion, currentVersion⟩]
      if currentVersion > r.lastPersistedVersion then
        ({ r with lastPersistedVersion := currentVersion }, store2, true)
      else (r, store2, true)
    else (r, store, true)

/-- Teardown events of `run()`'s deferred epilogue, in emission order. -/
inductive TeardownEvent where
  | tickerStopped
  | finalFlush (version : Int)
  | doneSignaled
deriving DecidableEq, Repr

/-- The teardown sequence that runs when `run()` returns after `Stop()`
closed `stopChan`: stop the flush ticker, run the final flush, close
`doneChan`.  `Stop()` blocks on `doneChan`, so its caller observes
exactly the state this function returns. -/
def Room.stopSequence (r : Room) (store : List SaveRecord) (saveOk : Bool) :
    Room × List SaveRecord × List TeardownEvent :=
  let (r2, store2, _) := r.flushToDB store saveOk
  (r2, store2, [TeardownEvent.tickerStopped, TeardownEvent.finalFlush r.version,
    TeardownEvent.doneSignaled])

/-- The full-sync frame `sendSyncToClient` builds for a new client: the
snapshot, the version, and every other attached user. -/
def Room.syncMessage (r : Room) (joiner : Client) : WireMsg :=
  .sync r.currentState r.version
    ((r.clients.filter (fun c => c.cid ≠ joiner.cid)).map Client.userInfo)

/-- The register branch of `run()`: put the client in the set, bump the
count, and push the full-sync frame into the new client's mailbox.
No frame is sent to anybody else. -/
def Room.registerClient (r : Room) (c : Client) : Room :=
  let r2 := { r with clients := r.clients ++ [c], clientCount := r.clientCount + 1 }
  let syncMsg := r2.syncMessage c
  { r2 with clients := r2.clients.map (fun x =>
      if x.cid = c.cid then { x with sendBuf := x.sendBuf ++ [syncMsg] } else x) }

/-- The unregister branch of `run()`: if the client is still in the set,
remove it, close its mailbox, and decrement the count; otherwise do
nothing.  Returns the room and whether it became idle (empty set after a
removal, which is when `run()` calls `hub.NotifyIdle`). -/
def Room.unregisterClient (r : Room) (cid : Nat) : Room × Bool :=
  if r.clients.any (fun c => c.cid = cid) then
    let clients2 := r.clients.filter (fun c => c.cid ≠ cid)
    ({ r with clients := clients2, clientCount := r.clientCount - 1 },
     clients2.isEmpty)
  else (r, false)

/-- A queued broadcast (`RoomBroadcast`); a `none` sender is the
server. -/
structure RoomBroadcast where
  message : WireMsg
  senderCid : Option Nat
  isCritical : Bool
deriving DecidableEq, Repr

/-- Per-recipient delivery in the broadcast branch of `run()`: skip the
sender; enqueue when the mailbox has room; on a full mailbox evict
(`none`) for a critical message and drop the message otherwise. -/
def deliverToClient (b : RoomBroadcast) (c : Client) : Option Client :=
  if b.senderCid = some c.cid then some c
  else if c.sendBuf.length < c.sendCap then
    some { c with sendBuf := c.sendBuf ++ [b.message] }
  else if b.isCritical then none
  else some c

/-- The broadcast branch of `run()` over the whole client set.  Evicted
clients are removed from the set and their mailboxes closed; the count
is left untouched (the code calls no `updateClientCount` here).  Returns
the room and the evicted clients. -/
def Room.doBroadcast (r : Room) (b : RoomBroadcast) : Room × List Client :=
  ({ r with clients := r.clients.filterMap (deliverToClient b) },
   (r.clients.filter (fun c => (deliverToClient b c).isNone)).map
     (fun c => { c with sendClosed := true }))

/-- The events `run()` serializes, with the persistence outcome attached
to the ones that may flush. -/
inductive RoomEvent where
  | register (c : Client)
  | unregister (cid : Nat)
  | broadcast (b : RoomBroadcast)
  | flushTick (saveOk : Bool)
  | stop (saveOk : Bool)
deriving Repr

/-- One iteration of the `run()` event loop (plus the stop epilogue). -/
def Room.handleEvent (r : Room) (store : List SaveRecord) :
    RoomEvent → Room × List SaveRecord
  | .register c => (r.registerClient c, store)
  | .unregister cid => ((r.unregisterClient cid).1, store)
  | .broadcast b => ((r.doBroadcast b).1, store)
  | .flushTick saveOk =>
    let (r2, store2, _) := r.flushToDB store saveOk
    (r2, store2)
  | .stop saveOk =>
    let (r2, store2, _) := r.stopSequence store saveOk
    (r2, store2)

/-! ## Client message handling (`client.go`) -/

/-- What `handleOpPatch` does after `Room.ApplyPatch` returns: an error
reply to the sender only, or a critical broadcast of the original
message. -/
inductive OpPatchOutcome where
  | reply (code : ErrorCode) (detail : String)
  | broadcastMsg (b : RoomBroadcast)
deriving DecidableEq, Repr

/-- `Client.handleOpPatch`: apply the patch and translate the outcome.
A `VersionConflictError` becomes a `VERSION_CONFLICT` reply carrying
both versions, any `PatchError` becomes a `PATCH_FAILED` reply carrying
the reason, and success broadcasts the original bytes as critical. -/
def handleOpPatch (r : Room) (senderCid : Nat) (rawMessage : String)
    (patches : String) (version : Int) : Room × OpPatchOutcome :=
  let res := r.applyPatch patches version
  match res.err with
  | some (.versionConflict cur exp) =>
    (r, .reply .versionConflict
      ("current: " ++ toString cur ++ ", expected: " ++ toString exp))
  | some (.patchError reason) => (r, .reply .patchFailed reason)
  | none => (res.room, .broadcastMsg ⟨.raw rawMessage, some senderCid, true⟩)

/-! ## Hub (`hub.go`) -/

/-- What `PageService.GetPageState` can report for a page. -/
inductive LoadResult where
  | ok (state : String) (version : Int)
  | notFound
  | dbError (msg : String)
deriving Repr

/-- The room directory: document ID to room. -/
structure Hub where
  rooms : List (String × Room)
deriving Repr

/-- The result of `Hub.GetOrCreateRoom`. -/
inductive GetOrCreateResult where
  | ok (room : Room)
  | errRoomClosing
  | errPageNotFound
  | errOther (msg : String)
deriving DecidableEq, Repr

/-- `Hub.GetOrCreateRoom`: return an existing room unless it is
stopping (then fail with the closing/retry error); otherwise consult
the persistence service, fail closed on `NotFound` or a database error,
and only on a successful load create and register a room seeded with
the loaded state and version. -/
def Hub.getOrCreateRoom (h : Hub) (svc : String → LoadResult) (roomID : String) :
    Hub × GetOrCreateResult :=
  match h.rooms.lookup roomID with
  | some room =>
    if room.stopping then (h, .errRoomClosing) else (h, .ok room)
  | none =>
    match svc roomID with
    | .notFound => (h, .errPageNotFound)
    | .dbError e => (h, .errOther e)
    | .ok state version =>
      let room := { newRoom roomID state with
        version := version, lastPersistedVersion := version }
      (⟨(roomID, room) :: h.rooms⟩, .ok room)

/-! ## Interleaved flush model (`flushToDB` against concurrent edits)

`flushToDB` captures `(snapshot, version)` under the read lock, releases
it, performs the slow save, and re-acquires the lock to advance
`lastPersistedVersion` — so a concurrent edit or a second flush can run
between capture and completion.  The interleavings are modelled as a
step relation over the room plus the multiset of captured versions of
in-flight flushes. -/

/-- A room together with the captured versions of in-flight flushes. -/
structure FlushWorld where
  room : Room
  pending : List Int

/-- The interleaved steps that touch `version`/`lastPersistedVersion`:
an `ApplyPatch` call, a flush capturing the current version (it returns
early when nothing is unpersisted), and a flush completing with the
version it captured, successfully or not.  A successful completion
advances `lastPersistedVersion` only if it is still ahead of it. -/
inductive FlushStep : FlushWorld → FlushWorld → Prop where
  | applyPatch (w : FlushWorld) (patchBytes : String) (expectedVersion : Int) :
      FlushStep w { w with room := (w.room.applyPatch patchBytes expectedVersion).room }
  | flushCapture (w : FlushWorld) :
      w.room.version ≠ w.room.lastPersistedVersion →
      FlushStep w { w with pending := w.room.version :: w.pending }
  | flushCompleteOk (w : FlushWorld) (v : Int) :
      v ∈ w.pending →
      FlushStep w
        { room := if v > w.room.lastPersistedVersion then
            { w.room with lastPersistedVersion := v } else w.room,
          pending := w.pending.erase v }
  | flushCompleteFail (w : FlushWorld) (v : Int) :
      v ∈ w.pending →
      FlushStep w { w with pending := w.pending.erase v }

/-- Reachability under interleaved flush/edit steps. -/
def FlushReachable : FlushWorld → FlushWorld → Prop :=
  Relation.ReflTransGen FlushStep

/-- The world of a freshly loaded room (`GetOrCreateRoom` seeds both
version counters with the persisted version; no flush is in flight). -/
def initWorld (id state : String) (version : Int) : FlushWorld :=
  { room := { newRoom id state with
      version := version, lastPersistedVersion := version },
    pending := [] }

/-! ## Sequential execution helpers -/

/-- Run a sequence of `ApplyPatch` calls, counting the successful ones. -/
def Room.runCalls (r : Room) : List (String × Int) → Room × Nat
  | [] => (r, 0)
  | (p, ev) :: rest =>
    (((r.applyPatch p ev).room.runCalls rest).1,
     (if (r.applyPatch p ev).err = none then 1 else 0) +
       ((r.applyPatch p ev).room.runCalls rest).2)

/-- Run `ApplyPatch` calls that all present the same expected version
(the serialization of N concurrent callers racing under `stateMu`),
collecting each call's returned error. -/
def Room.runSamePatches (r : Room) (expected : Int) : List String → Room × List (Option ApplyError)
  | [] => (r, [])
  | p :: ps =>
    (((r.applyPatch p expected).room.runSamePatches expected ps).1,
     (r.applyPatch p expected).err ::
       ((r.applyPatch p expected).room.runSamePatches expected ps).2)

/-- Whether patch bytes decode and apply cleanly against a document. -/
def patchApplies (p doc : String) : Bool :=
  match decodePatch p with
  | .error _ => false
  | .ok ops =>
    match patchApply ops doc with
    | .error _ => false
    | .ok _ => true

/-! ## Helper lemmas about `Room.applyPatch` -/

/-- Exhaustive case analysis of `Room.applyPatch`. -/
theorem applyPatch_cases (r : Room) (p : String) (ev : Int) :
    (r.version ≠ ev ∧
      r.applyPatch p ev = ⟨r, some (.versionConflict r.version ev), false⟩) ∨
    (r.version = ev ∧ ∃ e, decodePatch p = .error e ∧
      r.applyPatch p ev = ⟨r, some (.patchError ("patch 解析失败: " ++ e)), false⟩) ∨
    (r.version = ev ∧ ∃ ops e, decodePatch p = .ok ops ∧
      patchApply ops r.currentState = .error e ∧
      r.applyPatch p ev = ⟨r, some (.patchError ("patch 应用失败: " ++ e)), false⟩) ∨
    (r.version = ev ∧ ∃ ops m, decodePatch p = .ok ops ∧
      patchApply ops r.currentState = .ok m ∧
      r.applyPatch p ev = ⟨{ r with currentState := m, version := r.version + 1 }, none,
        decide (r.version + 1 - r.lastPersistedVersion ≥ flushThreshold)⟩) := by
  by_cases hv : r.version = ev
  · cases hd : decodePatch p with
    | error e =>
      exact Or.inr (Or.inl ⟨hv, e, rfl, by simp [Room.applyPatch, hv, hd]⟩)
    | ok ops =>
      cases ha : patchApply ops r.currentState with
      | error e =>
        exact Or.inr (Or.inr (Or.inl ⟨hv, ops, e, rfl, ha, by simp [Room.applyPatch, hv, hd, ha]⟩))
      | ok m =>
        exact Or.inr (Or.inr (Or.inr ⟨hv, ops, m, rfl, ha, by simp [Room.applyPatch, hv, hd, ha]⟩))
  · exact Or.inl ⟨hv, by simp [Room.applyPatch, hv]⟩

/-- A mismatched expected version returns the conflict carrying both
versions and leaves the room untouched. -/
theorem applyPatch_conflict (r : Room) (p : String) (ev : Int) (h : r.version ≠ ev) :
    r.applyPatch p ev = ⟨r, some (.versionConflict r.version ev), false⟩ := by
  simp [Room.applyPatch, h]

/-- Any error from `applyPatch` leaves the room exactly as it was. -/
theorem applyPatch_error_unchanged (r : Room) (p : String) (ev : Int)
    (h : (r.applyPatch p ev).err ≠ none) : (r.applyPatch p ev).room = r := by
  rcases applyPatch_cases r p ev with ⟨_, heq⟩ | ⟨_, e, _, heq⟩ | ⟨_, ops, e, _, _, heq⟩ |
    ⟨_, ops, m, _, _, heq⟩ <;> simp [heq] at h ⊢

/-- The room's version after one call: +1 on success, unchanged on
failure. -/
theorem applyPatch_version_eq (r : Room) (p : String) (ev : Int) :
    (r.applyPatch p ev).room.version =
      r.version + (if (r.applyPatch p ev).err = none then 1 else 0) := by
  rcases applyPatch_cases r p ev with ⟨_, heq⟩ | ⟨_, e, _, heq⟩ | ⟨_, ops, e, _, _, heq⟩ |
    ⟨_, ops, m, _, _, heq⟩ <;> simp [heq]

/-- `applyPatch` never moves `lastPersistedVersion`. -/
theorem applyPatch_lpv_eq (r : Room) (p : String) (ev : Int) :
    (r.applyPatch p ev).room.lastPersistedVersion = r.lastPersistedVersion := by
  rcases applyPatch_cases r p ev with ⟨_, heq⟩ | ⟨_, e, _, heq⟩ | ⟨_, ops, e, _, _, heq⟩ |
    ⟨_, ops, m, _, _, heq⟩ <;> simp [heq]

/-- `applyPatch` never lowers the version. -/
theorem applyPatch_version_mono (r : Room) (p : String) (ev : Int) :
    r.version ≤ (r.applyPatch p ev).room.version := by
  have h := applyPatch_version_eq r p ev
  by_cases he : (r.applyPatch p ev).err = none <;> simp [he] at h <;> omega

/-- A decodable, applicable patch presented with the current version
succeeds. -/
theorem applyPatch_success_eq (r : Room) (p : String) (ops : List PatchOp) (m : String)
    (hd : decodePatch p = .ok ops) (ha : patchApply ops r.currentState = .ok m) :
    r.applyPatch p r.version = ⟨{ r with currentState := m, version := r.version + 1 }, none,
      decide (r.version + 1 - r.lastPersistedVersion ≥ flushThreshold)⟩ := by
  simp [Room.applyPatch, hd, ha]

/-- Unpack `patchApplies`. -/
theorem patchApplies_success (p doc : String) (h : patchApplies p doc = true) :
    ∃ ops m, decodePatch p = .ok ops ∧ patchApply ops doc = .ok m := by
  unfold patchApplies at h
  cases hd : decodePatch p with
  | error e => simp [hd] at h
  | ok ops =>
    cases ha : patchApply ops doc with
    | error e => simp [hd, ha] at h
    | ok m => exact ⟨ops, m, rfl, ha⟩

/-- Once the room's version has moved past the presented expected
version, every further call fails with the conflict reporting the
post-mutation current version, and the room no longer changes. -/
theorem runSamePatches_conflict (r : Room) (expected : Int) (ps : List String)
    (h : r.version ≠ expected) :
    r.runSamePatches expected ps =
      (r, ps.map (fun _ => some (ApplyError.versionConflict r.version expected))) := by
  induction ps with
  | nil => simp [Room.runSamePatches]
  | cons p ps ih =>
    have hc := applyPatch_conflict r p expected h
    simp [Room.runSamePatches, hc, ih]

/-! ## Flush-interleaving invariant -/

/-- The persistence invariant: `lastPersistedVersion` never exceeds the
version, and every in-flight flush captured a version no newer than the
current one. -/
def FlushInv (w : FlushWorld) : Prop :=
  w.room.lastPersistedVersion ≤ w.room.version ∧ ∀ x ∈ w.pending, x ≤ w.room.version

/-- Every interleaved step preserves the persistence invariant. -/
theorem flushInv_step (w w2 : FlushWorld) (hinv : FlushInv w) (hstep : FlushStep w w2) :
    FlushInv w2 := by
  obtain ⟨h1, h2⟩ := hinv
  cases hstep with
  | applyPatch p ev =>
    have hm := applyPatch_version_mono w.room p ev
    have hl := applyPatch_lpv_eq w.room p ev
    unfold FlushInv
    dsimp only
    refine ⟨by omega, fun x hx => ?_⟩
    have := h2 x hx
    omega
  | flushCapture hne =>
    unfold FlushInv
    dsimp only
    refine ⟨h1, fun x hx => ?_⟩
    rcases List.mem_cons.mp hx with h | h
    · omega
    · exact h2 x h
  | flushCompleteOk v hv =>
    have hvle := h2 v hv
    unfold FlushInv
    by_cases hgt : v > w.room.lastPersistedVersion <;>
      simp only [hgt, if_true, if_false, ite_true, ite_false] <;>
      refine ⟨by omega, fun x hx => ?_⟩ <;>
      have hx2 : x ∈ w.pending := List.mem_of_mem_erase hx <;>
      have := h2 x hx2 <;>
      omega
  | flushCompleteFail v hv =>
    exact ⟨h1, fun x hx => h2 x (List.mem_of_mem_erase hx)⟩

/-- `lastPersistedVersion` never decreases across any single step, even
a stale flush completion. -/
theorem flushStep_lpv_mono (w w2 : FlushWorld) (hstep : FlushStep w w2) :
    w.room.lastPersistedVersion ≤ w2.room.lastPersistedVersion := by
  cases hstep with
  | applyPatch p ev =>
    dsimp only
    exact le_of_eq (applyPatch_lpv_eq w.room p ev).symm
  | flushCapture hne => exact le_refl _
  | flushCompleteOk v hv =>
    by_cases hgt : v > w.room.lastPersistedVersion <;>
      simp only [hgt, ite_true, ite_false, if_true, if_false] <;> omega
  | flushCompleteFail v hv => exact le_refl _

/-- The invariant holds in every state reachable from a freshly loaded
room. -/
theorem flushInv_reachable (id state : String) (version : Int) (w : FlushWorld)
    (hreach : FlushReachable (initWorld id state version) w) : FlushInv w := by
  induction hreach with
  | refl =>
    exact ⟨le_refl _, fun x hx => by simp [initWorld] at hx⟩
  | tail hsteps hstep ih => exact flushInv_step _ _ ih hstep

/-! ## Concrete scenario inputs (spec §8, Scenario A) -/

/-- Scenario A's initial snapshot. -/
def scnState : String :=
  "\x7b\"rootId\":1,\"components\":\x7b\"1\":\x7b\"id\":1,\"name\":\"Page\"\x7d\x7d\x7d"

/-- Scenario A's patch. -/
def scnPatch : String :=
  "[\x7b\"op\":\"replace\",\"path\":\"/components/1/name\",\"value\":\"NewPage\"\x7d]"

/-- Scenario C's patch: well-formed, inapplicable. -/
def scnPatchMissing : String :=
  "[\x7b\"op\":\"replace\",\"path\":\"/nonexistent/path\",\"value\":1\x7d]"

/-- A patch with an operation name outside RFC 6902. -/
def scnPatchBadOp : String :=
  "[\x7b\"op\":\"frobnicate\",\"path\":\"/rootId\"\x7d]"

/-- A room freshly created on Scenario A's snapshot (version 1). -/
def scnRoom : Room := newRoom "doc-1" scnState

/-- A room with unpersisted edits: version 3, persisted version 1. -/
def stopWitnessRoom : Room :=
  { newRoom "doc-5" scnState with version := 3, lastPersistedVersion := 1 }

/-- A room whose teardown has begun. -/
def stoppingRoom : Room := { newRoom "doc-y" scnState with stopping := true }

/-! ## Claim theorems -/

/-- C1: a mismatched `expectedVersion` returns a version-conflict error
carrying both the current and the expected version and leaves the
snapshot and version unchanged; a successful call replaces the snapshot
with the result of applying the patch and increments the version by
exactly 1; and over any sequence of calls the final version is the
initial version plus the number of successes, so it rises by 1 per
success and never decreases. -/
theorem applyPatch_version_contract :
    (∀ (r : Room) (p : String) (ev : Int), ev ≠ r.version →
      r.applyPatch p ev = ⟨r, some (.versionConflict r.version ev), false⟩) ∧
    (∀ (r : Room) (p : String) (ev : Int), (r.applyPatch p ev).err = none →
      ∃ ops, decodePatch p = .ok ops ∧
        patchApply ops r.currentState = .ok (r.applyPatch p ev).room.currentState ∧
        (r.applyPatch p ev).room.version = r.version + 1) ∧
    (∀ (r : Room) (calls : List (String × Int)),
      (r.runCalls calls).1.version = r.version + ((r.runCalls calls).2 : Int)) := by
  refine ⟨?_, ?_, ?_⟩
  · intro r p ev hne
    exact applyPatch_conflict r p ev (fun h => hne h.symm)
  · intro r p ev hok
    rcases applyPatch_cases r p ev with ⟨_, heq⟩ | ⟨_, e, _, heq⟩ | ⟨_, ops, e, _, _, heq⟩ |
      ⟨_, ops, m, hd, ha, heq⟩
    · simp [heq] at hok
    · simp [heq] at hok
    · simp [heq] at hok
    · exact ⟨ops, hd, by simp [heq, ha]⟩
  · intro r calls
    induction calls generalizing r with
    | nil => simp [Room.runCalls]
    | cons hd tl ih =>
      obtain ⟨p, ev⟩ := hd
      have h1 := applyPatch_version_eq r p ev
      have h2 := ih (r.applyPatch p ev).room
      by_cases he : (r.applyPatch p ev).err = none <;>
        simp only [Room.runCalls, he, if_true, if_false, ite_true, ite_false] <;>
        simp only [he, if_true, if_false, ite_true, ite_false] at h1 <;>
        push_cast <;>
        omega

/-- C1 witness: on Scenario A's room, a call with expected version 2
conflicts (the version is 1) and a call with expected version 1
succeeds, producing version 2. -/
theorem applyPatch_version_contract_witness :
    (scnRoom.applyPatch scnPatch 2 =
      ⟨scnRoom, some (.versionConflict scnRoom.version 2), false⟩) ∧
    (∃ ops, decodePatch scnPatch = .ok ops ∧
      patchApply ops scnRoom.currentState = .ok (scnRoom.applyPatch scnPatch 1).room.currentState ∧
      (scnRoom.applyPatch scnPatch 1).room.version = scnRoom.version + 1) :=
  ⟨applyPatch_version_contract.1 scnRoom scnPatch 2 (by decide),
   applyPatch_version_contract.2.1 scnRoom scnPatch 1 (by decide)⟩

/-- C2: serializing N callers which all present the same expected
version (equal to the current one) and all carry patches applicable to
the starting snapshot — which is what `stateMu` reduces the concurrent
race to, since the check and the mutation run under one critical
section — exactly one call succeeds (the first to take the lock), and
every other call fails with a version conflict reporting the
post-mutation current version. -/
theorem applyPatch_optimistic_lock_exclusive (r : Room) (p : String) (ps : List String)
    (happ : ∀ q ∈ p :: ps, patchApplies q r.currentState = true) :
    (((r.runSamePatches r.version (p :: ps)).2.filter Option.isNone).length = 1) ∧
    ((r.runSamePatches r.version (p :: ps)).2.head? = some none) ∧
    (∀ o ∈ (r.runSamePatches r.version (p :: ps)).2.tail,
      o = some (ApplyError.versionConflict (r.version + 1) r.version)) ∧
    ((r.runSamePatches r.version (p :: ps)).1.version = r.version + 1) := by
  obtain ⟨ops, m, hd, ha⟩ := patchApplies_success p r.currentState (happ p (by simp))
  have hsucc := applyPatch_success_eq r p ops m hd ha
  have hne : ({ r with currentState := m, version := r.version + 1 } : Room).version ≠ r.version := by
    simp
  have hrest := runSamePatches_conflict { r with currentState := m, version := r.version + 1 }
    r.version ps hne
  refine ⟨?_, ?_, ?_, ?_⟩ <;>
    simp only [Room.runSamePatches, hsucc, hrest] <;>
    simp [List.filter_eq_nil_iff]

/-- C2 witness: two serialized callers on Scenario A's room, both with
expected version 1 and an applicable patch — one success, one conflict
reporting (current 2, expected 1). -/
theorem applyPatch_optimistic_lock_exclusive_witness :
    (((scnRoom.runSamePatches scnRoom.version [scnPatch, scnPatch]).2.filter
        Option.isNone).length = 1) ∧
    ((scnRoom.runSamePatches scnRoom.version [scnPatch, scnPatch]).2.head? = some none) ∧
    (∀ o ∈ (scnRoom.runSamePatches scnRoom.version [scnPatch, scnPatch]).2.tail,
      o = some (ApplyError.versionConflict (scnRoom.version + 1) scnRoom.version)) ∧
    ((scnRoom.runSamePatches scnRoom.version [scnPatch, scnPatch]).1.version =
      scnRoom.version + 1) :=
  applyPatch_optimistic_lock_exclusive scnRoom scnPatch [scnPatch] (by decide)

/-- C3: with a matching expected version, a patch whose bytes fail to
decode (malformed JSON) or whose application fails (unknown operation,
missing path) makes `ApplyPatch` return a patch error, and the room —
snapshot and version — is exactly what it was: the patch is rejected
wholesale. -/
theorem applyPatch_rejects_wholesale (r : Room) (p : String)
    (hbad : (∃ e, decodePatch p = .error e) ∨
      (∃ ops e, decodePatch p = .ok ops ∧ patchApply ops r.currentState = .error e)) :
    ∃ reason, r.applyPatch p r.version = ⟨r, some (.patchError reason), false⟩ := by
  rcases hbad with ⟨e, hd⟩ | ⟨ops, e, hd, ha⟩
  · exact ⟨"patch 解析失败: " ++ e, by simp [Room.applyPatch, hd]⟩
  · exact ⟨"patch 应用失败: " ++ e, by simp [Room.applyPatch, hd, ha]⟩

/-- C3 witness: malformed JSON, an unknown operation name, and a
missing-path replace each leave Scenario A's room untouched and yield a
patch error. -/
theorem applyPatch_rejects_wholesale_witness :
    (∃ reason, scnRoom.applyPatch "not valid json" scnRoom.version =
      ⟨scnRoom, some (.patchError reason), false⟩) ∧
    (∃ reason, scnRoom.applyPatch scnPatchBadOp scnRoom.version =
      ⟨scnRoom, some (.patchError reason), false⟩) ∧
    (∃ reason, scnRoom.applyPatch scnPatchMissing scnRoom.version =
      ⟨scnRoom, some (.patchError reason), false⟩) :=
  ⟨applyPatch_rejects_wholesale scnRoom "not valid json"
      (Or.inl ⟨"invalid patch json", rfl⟩),
   applyPatch_rejects_wholesale scnRoom scnPatchBadOp
      (Or.inr ⟨⟨[("op", .str "frobnicate"), ("path", .str "/rootId")]⟩ :: [],
        "Unexpected kind: frobnicate", rfl, rfl⟩),
   applyPatch_rejects_wholesale scnRoom scnPatchMissing
      (Or.inr ⟨⟨[("op", .str "replace"), ("path", .str "/nonexistent/path"),
          ("value", .num 1)]⟩ :: [],
        "missing key: nonexistent", rfl, rfl⟩)⟩

/-- C4: `lastPersistedVersion ≤ version` holds in every state reachable
from a freshly loaded room under interleaved edits and flushes, and
`lastPersistedVersion` never decreases across any step; a flush finding
the current version already persisted calls the persistence service not
at all and changes nothing; a failed save leaves `lastPersistedVersion`
unchanged; and a completing flush installs its captured version only
when that is still ahead of `lastPersistedVersion`. -/
theorem flush_invariants :
    (∀ (id state : String) (version : Int) (w : FlushWorld),
      FlushReachable (initWorld id state version) w →
      w.room.lastPersistedVersion ≤ w.room.version ∧
        ∀ x ∈ w.pending, x ≤ w.room.version) ∧
    (∀ (w w2 : FlushWorld), FlushStep w w2 →
      w.room.lastPersistedVersion ≤ w2.room.lastPersistedVersion) ∧
    (∀ (r : Room) (store : List SaveRecord) (saveOk : Bool),
      r.version = r.lastPersistedVersion → r.flushToDB store saveOk = (r, store, false)) ∧
    (∀ (r : Room) (store : List SaveRecord),
      (r.flushToDB store false).1 = r ∧ (r.flushToDB store false).2.1 = store) := by
  refine ⟨?_, ?_, ?_, ?_⟩
  · exact fun id state version w h => flushInv_reachable id state version w h
  · exact fun w w2 h => flushStep_lpv_mono w w2 h
  · intro r store saveOk h
    simp [Room.flushToDB, h]
  · intro r store
    by_cases h : r.version = r.lastPersistedVersion <;> simp [Room.flushToDB, h]

/-- C4 witness: from a concrete loaded room, the invariant holds at the
initial world; an edit step never lowers `lastPersistedVersion`; a
flush at an already-persisted version is a definite no-op; and a failed
save changes nothing. -/
theorem flush_invariants_witness :
    ((initWorld "doc-4" scnState 3).room.lastPersistedVersion ≤
        (initWorld "doc-4" scnState 3).room.version ∧
      ∀ x ∈ (initWorld "doc-4" scnState 3).pending,
        x ≤ (initWorld "doc-4" scnState 3).room.version) ∧
    ((initWorld "doc-4" scnState 3).room.lastPersistedVersion ≤
      ({ initWorld "doc-4" scnState 3 with
          room := ((initWorld "doc-4" scnState 3).room.applyPatch scnPatch 3).room
        } : FlushWorld).room.lastPersistedVersion) ∧
    ((initWorld "doc-4" scnState 3).room.flushToDB [] true =
      ((initWorld "doc-4" scnState 3).room, [], false)) :=
  ⟨flush_invariants.1 "doc-4" scnState 3 _ Relation.ReflTransGen.refl,
   flush_invariants.2.1 _ _ (FlushStep.applyPatch (initWorld "doc-4" scnState 3) scnPatch 3),
   flush_invariants.2.2.1 (initWorld "doc-4" scnState 3).room [] true rfl⟩

/-- C5: the teardown epilogue that `Stop()` waits for emits, in order,
the ticker stop, the final flush of the version current at teardown,
and only then the completion signal; with a healthy persistence
service, once `Stop()` unblocks the last persisted version equals the
in-memory version at teardown, and if anything was unpersisted the
service was handed exactly the current snapshot and version. -/
theorem stop_flush_ordering (r : Room) (store : List SaveRecord)
    (hinv : r.lastPersistedVersion ≤ r.version) :
    ((r.stopSequence store true).2.2 =
      [TeardownEvent.tickerStopped, TeardownEvent.finalFlush r.version,
        TeardownEvent.doneSignaled]) ∧
    ((r.stopSequence store true).1.lastPersistedVersion = r.version) ∧
    (r.version ≠ r.lastPersistedVersion →
      (r.stopSequence store true).2.1 =
        store ++ [⟨r.id, r.currentState, r.lastPersistedVersion, r.version⟩]) := by
  by_cases h : r.version = r.lastPersistedVersion
  · exact ⟨rfl, by simp [Room.stopSequence, Room.flushToDB, h], by simp [h]⟩
  · have hgt : r.version > r.lastPersistedVersion := by omega
    refine ⟨rfl, ?_, ?_⟩
    · simp [Room.stopSequence, Room.flushToDB, h, hgt]
    · intro _
      simp [Room.stopSequence, Room.flushToDB, h, hgt]

/-- C5 witness: a room at version 3 with version 1 persisted hands the
service (id, snapshot, 1, 3) during teardown and unblocks with
`lastPersistedVersion = 3`, after the ordered teardown trace. -/
theorem stop_flush_ordering_witness :
    ((stopWitnessRoom.stopSequence [] true).2.2 =
      [TeardownEvent.tickerStopped, TeardownEvent.finalFlush stopWitnessRoom.version,
        TeardownEvent.doneSignaled]) ∧
    ((stopWitnessRoom.stopSequence [] true).1.lastPersistedVersion =
      stopWitnessRoom.version) ∧
    (stopWitnessRoom.version ≠ stopWitnessRoom.lastPersistedVersion →
      (stopWitnessRoom.stopSequence [] true).2.1 =
        [] ++ [⟨stopWitnessRoom.id, stopWitnessRoom.currentState,
          stopWitnessRoom.lastPersistedVersion, stopWitnessRoom.version⟩]) :=
  stop_flush_ordering stopWitnessRoom [] (by decide)

/-- C6: `GetOrCreateRoom` fails closed — when no room exists and the
persistence service reports the page missing, it returns the
page-not-found error and registers nothing, and when the
looked-up room is mid-stop it returns the closing/retry error instead
of the room. -/
theorem getOrCreateRoom_fails_closed :
    (∀ (h : Hub) (svc : String → LoadResult) (id : String),
      h.rooms.lookup id = none → svc id = .notFound →
      h.getOrCreateRoom svc id = (h, .errPageNotFound) ∧
        ((h.getOrCreateRoom svc id).1.rooms.lookup id = none)) ∧
    (∀ (h : Hub) (svc : String → LoadResult) (id : String) (room : Room),
      h.rooms.lookup id = some room → room.stopping = true →
      h.getOrCreateRoom svc id = (h, .errRoomClosing)) := by
  constructor
  · intro h svc id hnone hsvc
    have : h.getOrCreateRoom svc id = (h, .errPageNotFound) := by
      simp [Hub.getOrCreateRoom, hnone, hsvc]
    exact ⟨this, by simp [this, hnone]⟩
  · intro h svc id room hsome hstop
    simp [Hub.getOrCreateRoom, hsome, hstop]

/-- C6 witness: an empty directory with a NotFound persistence service
yields the page-not-found error and stays empty; a directory whose only
room is stopping yields the closing error. -/
theorem getOrCreateRoom_fails_closed_witness :
    ((Hub.mk []).getOrCreateRoom (fun _ => .notFound) "doc-x" =
        (Hub.mk [], .errPageNotFound) ∧
      (((Hub.mk []).getOrCreateRoom (fun _ => .notFound) "doc-x").1.rooms.lookup "doc-x" =
        none)) ∧
    ((Hub.mk [("doc-y", stoppingRoom)]).getOrCreateRoom (fun _ => .notFound) "doc-y" =
      (Hub.mk [("doc-y", stoppingRoom)], .errRoomClosing)) :=
  ⟨getOrCreateRoom_fails_closed.1 (Hub.mk []) (fun _ => .notFound) "doc-x" rfl rfl,
   getOrCreateRoom_fails_closed.2 (Hub.mk [("doc-y", stoppingRoom)]) (fun _ => .notFound)
     "doc-y" stoppingRoom rfl rfl⟩

/-- Delivery never changes a client's identity. -/
theorem deliverToClient_cid (b : RoomBroadcast) (a c2 : Client)
    (h : deliverToClient b a = some c2) : c2.cid = a.cid := by
  unfold deliverToClient at h
  split at h
  · injection h with h2
    subst h2
    rfl
  · split at h
    · injection h with h2
      subst h2
      rfl
    · split at h
      · exact Option.noConfusion h
      · injection h with h2
        subst h2
        rfl

/-- C7: broadcast skips the sender and delivers to every other client
with mailbox room, independently of the rest of the set; a full-mailbox
recipient of a critical message is removed from the set with its
mailbox closed while every other recipient still receives the message;
a full-mailbox recipient of a non-critical message merely misses that
message and stays registered, with no effect on anyone else. -/
theorem broadcast_delivery_policy :
    (∀ (r : Room) (b : RoomBroadcast) (c : Client), c ∈ r.clients →
      b.senderCid ≠ some c.cid → c.sendBuf.length < c.sendCap →
      { c with sendBuf := c.sendBuf ++ [b.message] } ∈ (r.doBroadcast b).1.clients) ∧
    (∀ (r : Room) (b : RoomBroadcast) (c : Client), c ∈ r.clients →
      b.senderCid = some c.cid → c ∈ (r.doBroadcast b).1.clients) ∧
    (∀ (r : Room) (b : RoomBroadcast) (c : Client), c ∈ r.clients →
      b.senderCid ≠ some c.cid → ¬ c.sendBuf.length < c.sendCap → b.isCritical = true →
      ({ c with sendClosed := true } ∈ (r.doBroadcast b).2 ∧
        ((r.clients.map Client.cid).Nodup →
          ∀ c2 ∈ (r.doBroadcast b).1.clients, c2.cid ≠ c.cid))) ∧
    (∀ (r : Room) (b : RoomBroadcast) (c : Client), c ∈ r.clients →
      b.senderCid ≠ some c.cid → ¬ c.sendBuf.length < c.sendCap → b.isCritical = false →
      c ∈ (r.doBroadcast b).1.clients) := by
  refine ⟨?_, ?_, ?_, ?_⟩
  · intro r b c hmem hs hlen
    show _ ∈ r.clients.filterMap (deliverToClient b)
    exact List.mem_filterMap.mpr ⟨c, hmem, by simp [deliverToClient, hs, hlen]⟩
  · intro r b c hmem hs
    show _ ∈ r.clients.filterMap (deliverToClient b)
    exact List.mem_filterMap.mpr ⟨c, hmem, by simp [deliverToClient, hs]⟩
  · intro r b c hmem hs hlen hcrit
    have hdel : deliverToClient b c = none := by
      simp [deliverToClient, hs, hlen, hcrit]
    refine ⟨?_, ?_⟩
    · show _ ∈ (r.clients.filter (fun x => (deliverToClient b x).isNone)).map
        (fun x => { x with sendClosed := true })
      exact List.mem_map.mpr ⟨c, List.mem_filter.mpr ⟨hmem, by simp [hdel]⟩, rfl⟩
    · intro hnodup c2 hc2 hcontra
      obtain ⟨a, ha, hda⟩ := List.mem_filterMap.mp hc2
      have hcid : a.cid = c.cid := (deliverToClient_cid b a c2 hda) ▸ hcontra
      have hac : a = c := List.inj_on_of_nodup_map hnodup ha hmem hcid
      rw [hac, hdel] at hda
      exact Option.noConfusion hda
  · intro r b c hmem hs hlen hcrit
    show _ ∈ r.clients.filterMap (deliverToClient b)
    exact List.mem_filterMap.mpr ⟨c, hmem, by simp [deliverToClient, hs, hlen, hcrit]⟩

/-- A sender client with two peers: one with space, one saturated. -/
def bSender : Client := newClient 1 ⟨"a", "a", "#111111"⟩

/-- A recipient with an empty mailbox. -/
def bFree : Client := newClient 2 ⟨"b", "b", "#222222"⟩

/-- A recipient whose 256-slot mailbox is saturated. -/
def bFull : Client :=
  { newClient 3 ⟨"c", "c", "#333333"⟩ with
    sendBuf := List.replicate 256 (WireMsg.raw "backlog") }

/-- The room holding the three clients above. -/
def bRoom : Room :=
  { newRoom "doc-7" scnState with clients := [bSender, bFree, bFull], clientCount := 3 }

/-- A critical broadcast from the sender. -/
def bCritical : RoomBroadcast := ⟨WireMsg.raw "patch-bytes", some 1, true⟩

/-- A non-critical (cursor) broadcast from the sender. -/
def bCursor : RoomBroadcast := ⟨WireMsg.raw "cursor-bytes", some 1, false⟩

set_option maxRecDepth 8000 in
/-- C7 witness: in a concrete room, the free peer receives the critical
message, the saturated peer is evicted with its mailbox closed and is
gone from the surviving set, and under a non-critical broadcast the
saturated peer stays with the message dropped. -/
theorem broadcast_delivery_policy_witness :
    ({ bFree with sendBuf := bFree.sendBuf ++ [bCritical.message] } ∈
      (bRoom.doBroadcast bCritical).1.clients) ∧
    (bSender ∈ (bRoom.doBroadcast bCritical).1.clients) ∧
    ({ bFull with sendClosed := true } ∈ (bRoom.doBroadcast bCritical).2 ∧
      ((bRoom.clients.map Client.cid).Nodup →
        ∀ c2 ∈ (bRoom.doBroadcast bCritical).1.clients, c2.cid ≠ bFull.cid)) ∧
    (bFull ∈ (bRoom.doBroadcast bCursor).1.clients) :=
  ⟨broadcast_delivery_policy.1 bRoom bCritical bFree (by decide) (by decide) (by decide),
   broadcast_delivery_policy.2.1 bRoom bCritical bSender (by decide) (by decide),
   broadcast_delivery_policy.2.2.1 bRoom bCritical bFull (by decide) (by decide)
     (by decide) (by decide),
   broadcast_delivery_policy.2.2.2 bRoom bCursor bFull (by decide) (by decide)
     (by decide) (by decide)⟩

/-- The error code of an error reply, if the outcome is one. -/
def replyCode : OpPatchOutcome → Option ErrorCode
  | .reply code _ => some code
  | .broadcastMsg _ => none

/-- C8 counterexample: a malformed patch body ("not valid json") with a
matching expected version is answered with code `PATCH_FAILED`, not
`PATCH_INVALID` — `handleOpPatch` maps every `PatchError` to
`ErrPatchFailed` and the declared `ErrPatchInvalid` is never sent. -/
theorem opPatch_malformed_code_counterexample :
    replyCode (handleOpPatch (newRoom "doc-8" "\x7b\x7d") 7 "raw-bytes" "not valid json" 1).2 =
      some ErrorCode.patchFailed ∧
    ErrorCode.patchFailed ≠ ErrorCode.patchInvalid :=
  ⟨rfl, by decide⟩

/-- C8 (amended): a version conflict is answered with
`VERSION_CONFLICT` carrying the current and expected versions and the
room untouched; both a malformed patch body and a well-formed but
inapplicable patch are answered with `PATCH_FAILED`; on success the
original message bytes are broadcast as critical. -/
theorem opPatch_error_code_translation :
    (∀ (r : Room) (cid : Nat) (raw p : String) (v : Int), r.version ≠ v →
      (handleOpPatch r cid raw p v).2 = .reply .versionConflict
        ("current: " ++ toString r.version ++ ", expected: " ++ toString v) ∧
      (handleOpPatch r cid raw p v).1 = r) ∧
    (∀ (r : Room) (cid : Nat) (raw p : String),
      ((∃ e, decodePatch p = .error e) ∨
        (∃ ops e, decodePatch p = .ok ops ∧ patchApply ops r.currentState = .error e)) →
      ∃ reason, (handleOpPatch r cid raw p r.version).2 = .reply .patchFailed reason) ∧
    (∀ (r : Room) (cid : Nat) (raw p : String) (v : Int),
      (r.applyPatch p v).err = none →
      (handleOpPatch r cid raw p v).2 = .broadcastMsg ⟨.raw raw, some cid, true⟩ ∧
      (handleOpPatch r cid raw p v).1 = (r.applyPatch p v).room) := by
  refine ⟨?_, ?_, ?_⟩
  · intro r cid raw p v hne
    have hc := applyPatch_conflict r p v hne
    exact ⟨by simp [handleOpPatch, hc], by simp [handleOpPatch, hc]⟩
  · intro r cid raw p hbad
    rcases hbad with ⟨e, hd⟩ | ⟨ops, e, hd, ha⟩
    · exact ⟨"patch 解析失败: " ++ e, by simp [handleOpPatch, Room.applyPatch, hd]⟩
    · exact ⟨"patch 应用失败: " ++ e, by simp [handleOpPatch, Room.applyPatch, hd, ha]⟩
  · intro r cid raw p v hok
    exact ⟨by simp [handleOpPatch, hok], by simp [handleOpPatch, hok]⟩

/-- C8 witness: a stale expected version 9 on a version-1 room yields
the VERSION_CONFLICT reply carrying (1, 9); Scenario C's missing-path
patch yields PATCH_FAILED; Scenario A's patch at version 1 is broadcast
as critical. -/
theorem opPatch_error_code_translation_witness :
    ((handleOpPatch scnRoom 7 "raw-bytes" scnPatch 9).2 = .reply .versionConflict
        ("current: " ++ toString scnRoom.version ++ ", expected: " ++ toString (9 : Int)) ∧
      (handleOpPatch scnRoom 7 "raw-bytes" scnPatch 9).1 = scnRoom) ∧
    (∃ reason, (handleOpPatch scnRoom 7 "raw-bytes" scnPatchMissing scnRoom.version).2 =
      .reply .patchFailed reason) ∧
    ((handleOpPatch scnRoom 7 "raw-bytes" scnPatch 1).2 =
        .broadcastMsg ⟨.raw "raw-bytes", some 7, true⟩ ∧
      (handleOpPatch scnRoom 7 "raw-bytes" scnPatch 1).1 =
        (scnRoom.applyPatch scnPatch 1).room) :=
  ⟨opPatch_error_code_translation.1 scnRoom 7 "raw-bytes" scnPatch 9 (by decide),
   opPatch_error_code_translation.2.1 scnRoom 7 "raw-bytes" scnPatchMissing
     (Or.inr ⟨⟨[("op", .str "replace"), ("path", .str "/nonexistent/path"),
         ("value", .num 1)]⟩ :: [],
       "missing key: nonexistent", rfl, rfl⟩),
   opPatch_error_code_translation.2.2 scnRoom 7 "raw-bytes" scnPatch 1 (by decide)⟩

/-- A registered client present before a join. -/
def c9Existing : Client := newClient 1 ⟨"u1", "u1", "#000000"⟩

/-- A client about to join. -/
def c9Joiner : Client := newClient 2 ⟨"u2", "u2", "#ffffff"⟩

/-- A one-client room about to receive a join. -/
def c9Room : Room :=
  { newRoom "doc-9" scnState with clients := [c9Existing], clientCount := 1 }

/-- C9 counterexample: when a second client joins a one-client room,
the register branch pushes only the full-sync frame into the joiner's
mailbox — the already-registered client's mailbox stays empty, so no
participant-joined notification is sent to the other connections
(`TypeUserJoin` is declared in the protocol but never emitted). -/
theorem register_no_join_notification_counterexample :
    ((c9Room.registerClient c9Joiner).clients.map Client.sendBuf) =
      [[], [WireMsg.sync scnState 1 [c9Existing.userInfo]]] := by
  decide

/-- Mapping the sync-push over clients whose ids all differ from the
joiner's changes nothing. -/
theorem map_syncPush_noop (cjoin : Client) (msg : WireMsg) (l : List Client)
    (h : ∀ x ∈ l, x.cid ≠ cjoin.cid) :
    l.map (fun x => if x.cid = cjoin.cid then
      { x with sendBuf := x.sendBuf ++ [msg] } else x) = l := by
  induction l with
  | nil => rfl
  | cons hd tl ih =>
    have h1 : hd.cid ≠ cjoin.cid := h hd (by simp)
    simp only [List.map_cons, if_neg h1, List.cons.injEq, true_and]
    exact ih (fun x hx => h x (by simp [hx]))

/-- Filtering out the joiner's id keeps a list of clients whose ids all
differ from it. -/
theorem filter_fresh_noop (cjoin : Client) (l : List Client)
    (h : ∀ x ∈ l, x.cid ≠ cjoin.cid) :
    l.filter (fun x => x.cid ≠ cjoin.cid) = l := by
  induction l with
  | nil => rfl
  | cons hd tl ih =>
    have h1 : hd.cid ≠ cjoin.cid := h hd (by simp)
    rw [List.filter_cons, if_pos (by simp [h1]), ih (fun x hx => h x (by simp [hx]))]

/-- C9 (amended): registering a fresh connection appends it to the
client set, bumps the count, and pushes into the joiner's mailbox a
single full-sync frame carrying the current snapshot, the current
version, and the other attached participants; every other client's
state — mailbox included — is untouched, and no participant-joined
notification exists. -/
theorem register_sync_only (r : Room) (c : Client)
    (hfresh : ∀ x ∈ r.clients, x.cid ≠ c.cid) :
    (r.registerClient c).clients =
      r.clients ++ [{ c with sendBuf := c.sendBuf ++
        [WireMsg.sync r.currentState r.version (r.clients.map Client.userInfo)] }] ∧
    (r.registerClient c).clientCount = r.clientCount + 1 ∧
    (r.registerClient c).currentState = r.currentState ∧
    (r.registerClient c).version = r.version := by
  refine ⟨?_, rfl, rfl, rfl⟩
  unfold Room.registerClient Room.syncMessage
  dsimp only
  rw [List.filter_append, filter_fresh_noop c r.clients hfresh]
  rw [List.map_append, map_syncPush_noop c _ r.clients hfresh]
  simp

/-- C9 witness: the amended join behavior at the concrete one-client
room. -/
theorem register_sync_only_witness :
    ((c9Room.registerClient c9Joiner).clients =
      c9Room.clients ++ [{ c9Joiner with sendBuf := c9Joiner.sendBuf ++
        [WireMsg.sync c9Room.currentState c9Room.version
          (c9Room.clients.map Client.userInfo)] }] ∧
    (c9Room.registerClient c9Joiner).clientCount = c9Room.clientCount + 1 ∧
    (c9Room.registerClient c9Joiner).currentState = c9Room.currentState ∧
    (c9Room.registerClient c9Joiner).version = c9Room.version) :=
  register_sync_only c9Room c9Joiner (by decide)

/-- A client whose 256-slot mailbox is saturated. -/
def c10Slow : Client :=
  { newClient 1 ⟨"slow", "slow", "#444444"⟩ with
    sendBuf := List.replicate 256 (WireMsg.raw "backlog") }

/-- A room whose only client is the saturated one. -/
def c10Room : Room :=
  { newRoom "doc-10" scnState with clients := [c10Slow], clientCount := 1 }

/-- A critical server broadcast into that room. -/
def c10Broadcast : RoomBroadcast := ⟨WireMsg.raw "critical-bytes", none, true⟩

set_option maxRecDepth 8000 in
/-- C10: after the broadcast event evicts the saturated client, the
client set is empty but `clientCount` still reads 1 — the eviction path
in `run()` deletes from the set and closes the mailbox without calling
`updateClientCount`, and the evicted client's later Unregister is a
no-op (it is no longer in the set), so the count never resyncs. -/
theorem clientCount_drift_after_eviction :
    ((c10Room.handleEvent [] (RoomEvent.broadcast c10Broadcast)).1.clientCount = 1) ∧
    ((c10Room.handleEvent [] (RoomEvent.broadcast c10Broadcast)).1.clients.length = 0) ∧
    (((c10Room.handleEvent [] (RoomEvent.broadcast c10Broadcast)).1.handleEvent []
        (RoomEvent.unregister c10Slow.cid)).1.clientCount = 1) ∧
    (((c10Room.handleEvent [] (RoomEvent.broadcast c10Broadcast)).1.handleEvent []
        (RoomEvent.unregister c10Slow.cid)).1.clients.length = 0) := by
  refine ⟨by decide, by decide, by decide, by decide⟩

end LCWS
